import Mathlib

/-!
Verification of the task-state store (`workflow/lib/state_manager.py`) and the
LLM invocation client (`workflow/lib/llm_client.py`) of azumag/LLMAgentOrg,
via a shallow embedding of both modules.

The persisted `state.json` record is a JSON document; it is embedded as the
inductive `Value` (JSON floats never occur in this state file and are
omitted).  Python dicts are embedded as insertion-ordered association lists
with first-occurrence lookup and in-place overwrite, which is exactly the
observable behaviour of a Python `dict` (which cannot hold a key twice).
The file on disk is `Option FileContent`: `none` when `state.json` does not
exist, `FileContent.good v` when it holds text that `json.load` parses to
`v`, and `FileContent.bad s` when it holds unparsable text `s` (for the
records this module writes, `json.dump`/`json.load` round-trip exactly, so a
written record is represented by its parsed value).  Every operation of
`StateManager` is a function of the file before the call (plus the timestamp
`_get_timestamp` would return during the call, an opaque string) to the
returned value or raised error, paired with the file after the call.
-/

/-- A JSON value as stored in `state.json`.  Floats are omitted: the state
record only ever holds strings, integers, booleans, null, arrays and
objects. -/
inductive Value where
  | str : String → Value
  | int : Int → Value
  | bool : Bool → Value
  | null : Value
  | list : List Value → Value
  | obj : List (String × Value) → Value

/-- A Python dict with `String` keys, as an insertion-ordered association
list without repeated keys; lookup takes the first binding. -/
abbrev Obj := List (String × Value)

/-- Python `d.get(k)` / `d[k]`: the first binding of `k`. -/
def dictGet {α : Type} : List (String × α) → String → Option α
  | [], _ => none
  | (k, v) :: rest, key => if k = key then some v else dictGet rest key

/-- Python `d[k] = v`: overwrite the first binding of `k` in place, or append
a new binding when `k` is absent. -/
def dictSet {α : Type} : List (String × α) → String → α → List (String × α)
  | [], key, v => [(key, v)]
  | (k, w) :: rest, key, v =>
    if k = key then (key, v) :: rest else (k, w) :: dictSet rest key v

/-- Python `{**a, **b}`: `a` updated by every binding of `b` in order. -/
def dictMerge {α : Type} (a b : List (String × α)) : List (String × α) :=
  b.foldl (fun acc p => dictSet acc p.1 p.2) a

/-- The last binding of `k` in a binding list (the one a left-to-right
sequence of `d[k] = v` assignments leaves in force). -/
def lastBinding {α : Type} : List (String × α) → String → Option α
  | [], _ => none
  | p :: rest, key =>
    match lastBinding rest key with
    | some v => some v
    | none => if p.1 = key then some p.2 else none

/-- Python `number(v)` view used by `+` and `<`: ints are themselves and
bools are 0/1 (Python's `bool` is a subtype of `int`); everything else is
not a number. -/
def pyNum : Value → Option Int
  | Value.int n => some n
  | Value.bool b => some (if b then 1 else 0)
  | _ => none

/-- The errors a `StateManager` operation can raise.  `corruptState` is the
parse error `json.load` raises on unparsable content, `storageError` an OS
error at the storage boundary, and `runtimeError` a Python `KeyError` /
`TypeError` / `AttributeError` from an ill-shaped state record. -/
inductive StoreError where
  | corruptState
  | storageError
  | runtimeError
  deriving DecidableEq

/-- Python `a < b` as used by `can_retry`: defined for number/number and
string/string operands, a `TypeError` otherwise. -/
def pyLt (a b : Value) : Except StoreError Bool :=
  match pyNum a, pyNum b with
  | some x, some y => Except.ok (decide (x < y))
  | _, _ =>
    match a, b with
    | Value.str x, Value.str y => Except.ok (decide (x < y))
    | _, _ => Except.error StoreError.runtimeError

/-- The `state.json` file of one task: absent, or parseable content
(represented by its parsed record), or unparsable content. -/
inductive FileContent where
  | good : Obj → FileContent
  | bad : String → FileContent

/-- Status constants of `state_manager.Status`. -/
def Status.INIT : String := "INIT"

def Status.COMPLETED : String := "COMPLETED"

def Status.FAILED : String := "FAILED"

/-- The fresh record `StateManager.init_state` builds (before `save` stamps
`updated_at`); `ts` is the timestamp `_get_timestamp` returned. -/
def StateManager.init_state (task_id ts : String) (max_retries : Int) : Obj :=
  [("task_id", Value.str task_id),
   ("status", Value.str Status.INIT),
   ("created_at", Value.str ts),
   ("updated_at", Value.str ts),
   ("steps", Value.obj
     [("design", Value.obj [("status", Value.str "pending")]),
      ("test_cases", Value.obj [("status", Value.str "pending")]),
      ("implementation", Value.obj
        [("status", Value.str "pending"), ("attempt", Value.int 0)]),
      ("testing", Value.obj
        [("status", Value.str "pending"), ("results", Value.list [])]),
      ("review", Value.obj [("status", Value.str "pending")])]),
   ("escalation", Value.obj [("count", Value.int 0), ("history", Value.list [])]),
   ("retry_count", Value.int 0),
   ("max_retries", Value.int max_retries)]

/-- `StateManager.save`: stamp `updated_at` with the current time and write
the whole record, replacing any prior content.  Returns the state as mutated
in place together with the file content the write leaves behind. -/
def StateManager.save (state : Obj) (ts : String) : Obj × FileContent :=
  let state' := dictSet state "updated_at" (Value.str ts)
  (state', FileContent.good state')

/-- `StateManager.init_state` as an operation on the file: build the fresh
record, `save` it, return it. -/
def StateManager.init_state_op (task_id ts : String) (max_retries : Int) :
    Obj × FileContent :=
  StateManager.save (StateManager.init_state task_id ts max_retries) ts

/-- `StateManager.load`: when the file does not exist, initialize (with the
default `max_retries = 3`); otherwise parse it, raising on unparsable
content. -/
def StateManager.load (task_id ts : String) (fs : Option FileContent) :
    Except StoreError Obj × Option FileContent :=
  match fs with
  | none =>
    let p := StateManager.init_state_op task_id ts 3
    (Except.ok p.1, some p.2)
  | some (FileContent.good v) => (Except.ok v, some (FileContent.good v))
  | some (FileContent.bad s) =>
    (Except.error StoreError.corruptState, some (FileContent.bad s))

/-- `StateManager.update_status`: load, set `status`, save. -/
def StateManager.update_status (task_id ts new_status : String)
    (fs : Option FileContent) : Except StoreError Obj × Option FileContent :=
  match StateManager.load task_id ts fs with
  | (Except.error e, fs') => (Except.error e, fs')
  | (Except.ok st, _) =>
    let p := StateManager.save (dictSet st "status" (Value.str new_status)) ts
    (Except.ok p.1, some p.2)

/-- `StateManager.update_step`: load; create an empty record for an absent
step name; assign every kwarg into that step's record; save.  A missing
`steps` field is a `KeyError`, a non-dict step record a `TypeError`. -/
def StateManager.update_step (task_id ts step_name : String)
    (kwargs : List (String × Value)) (fs : Option FileContent) :
    Except StoreError Obj × Option FileContent :=
  match StateManager.load task_id ts fs with
  | (Except.error e, fs') => (Except.error e, fs')
  | (Except.ok st, fs') =>
    match dictGet st "steps" with
    | some (Value.obj steps) =>
      let steps1 :=
        match dictGet steps step_name with
        | none => dictSet steps step_name (Value.obj [])
        | some _ => steps
      match dictGet steps1 step_name with
      | some (Value.obj r) =>
        let r' := kwargs.foldl (fun acc p => dictSet acc p.1 p.2) r
        let st1 := dictSet st "steps" (Value.obj (dictSet steps1 step_name (Value.obj r')))
        let p := StateManager.save st1 ts
        (Except.ok p.1, some p.2)
      | _ => (Except.error StoreError.runtimeError, fs')
    | _ => (Except.error StoreError.runtimeError, fs')

/-- `StateManager.increment_retry`: load, `retry_count = get("retry_count", 0) + 1`,
save.  A non-numeric present value is a `TypeError`. -/
def StateManager.increment_retry (task_id ts : String) (fs : Option FileContent) :
    Except StoreError Obj × Option FileContent :=
  match StateManager.load task_id ts fs with
  | (Except.error e, fs') => (Except.error e, fs')
  | (Except.ok st, fs') =>
    match pyNum ((dictGet st "retry_count").getD (Value.int 0)) with
    | none => (Except.error StoreError.runtimeError, fs')
    | some n =>
      let p := StateManager.save (dictSet st "retry_count" (Value.int (n + 1))) ts
      (Except.ok p.1, some p.2)

/-- The escalation entry `StateManager.add_escalation` builds: `timestamp`
and `reason` always, `response` exactly when one was supplied. -/
def StateManager.escalation_entry (ts reason : String) (response : Option String) : Obj :=
  [("timestamp", Value.str ts), ("reason", Value.str reason)] ++
    (match response with
     | some r => [("response", Value.str r)]
     | none => [])

/-- `StateManager.add_escalation`: load; `escalation.count = escalation.get("count", 0) + 1`;
append the entry to `escalation.history`; save.  A missing or non-dict
`escalation`, a non-numeric `count`, or a missing or non-list `history` is a
Python `KeyError` / `TypeError` / `AttributeError`. -/
def StateManager.add_escalation (task_id ts reason : String) (response : Option String)
    (fs : Option FileContent) : Except StoreError Obj × Option FileContent :=
  match StateManager.load task_id ts fs with
  | (Except.error e, fs') => (Except.error e, fs')
  | (Except.ok st, fs') =>
    match dictGet st "escalation" with
    | some (Value.obj esc) =>
      match pyNum ((dictGet esc "count").getD (Value.int 0)) with
      | none => (Except.error StoreError.runtimeError, fs')
      | some c =>
        match dictGet esc "history" with
        | some (Value.list h) =>
          let entry := Value.obj (StateManager.escalation_entry ts reason response)
          let esc' := dictSet (dictSet esc "count" (Value.int (c + 1)))
            "history" (Value.list (h ++ [entry]))
          let p := StateManager.save (dictSet st "escalation" (Value.obj esc')) ts
          (Except.ok p.1, some p.2)
        | _ => (Except.error StoreError.runtimeError, fs')
    | _ => (Except.error StoreError.runtimeError, fs')

/-- The fixed step order of `StateManager.get_current_step`. -/
def StateManager.step_order : List String :=
  ["design", "test_cases", "implementation", "testing", "review"]

/-- One scanning loop of `StateManager.get_current_step`: the first step name
of `order` that is present in `steps` and whose record's `status` equals
`target`; a present non-dict step record is an `AttributeError` (`.get` on a
non-dict). -/
def StateManager.scan_steps (steps : Obj) (target : String) :
    List String → Except StoreError (Option String)
  | [] => Except.ok none
  | n :: rest =>
    match dictGet steps n with
    | none => StateManager.scan_steps steps target rest
    | some (Value.obj r) =>
      match dictGet r "status" with
      | some (Value.str s) =>
        if s = target then Except.ok (some n)
        else StateManager.scan_steps steps target rest
      | _ => StateManager.scan_steps steps target rest
    | some _ => Except.error StoreError.runtimeError

/-- `StateManager.get_current_step`: load; first `in_progress` step in order,
else first `pending` step, else the last step name of the order. -/
def StateManager.get_current_step (task_id ts : String) (fs : Option FileContent) :
    Except StoreError String × Option FileContent :=
  match StateManager.load task_id ts fs with
  | (Except.error e, fs') => (Except.error e, fs')
  | (Except.ok st, fs') =>
    match dictGet st "steps" with
    | some (Value.obj steps) =>
      match StateManager.scan_steps steps "in_progress" StateManager.step_order with
      | Except.error e => (Except.error e, fs')
      | Except.ok (some n) => (Except.ok n, fs')
      | Except.ok none =>
        match StateManager.scan_steps steps "pending" StateManager.step_order with
        | Except.error e => (Except.error e, fs')
        | Except.ok (some n) => (Except.ok n, fs')
        | Except.ok none => (Except.ok (StateManager.step_order.getLastD ""), fs')
    | _ => (Except.error StoreError.runtimeError, fs')

/-- `StateManager.can_retry`: load; `get("retry_count", 0) < get("max_retries", 3)`. -/
def StateManager.can_retry (task_id ts : String) (fs : Option FileContent) :
    Except StoreError Bool × Option FileContent :=
  match StateManager.load task_id ts fs with
  | (Except.error e, fs') => (Except.error e, fs')
  | (Except.ok st, fs') =>
    match pyLt ((dictGet st "retry_count").getD (Value.int 0))
        ((dictGet st "max_retries").getD (Value.int 3)) with
    | Except.ok b => (Except.ok b, fs')
    | Except.error e => (Except.error e, fs')

/-- `StateManager.is_completed`: load; `get("status") == "COMPLETED"`
(a non-string or absent status simply compares unequal). -/
def StateManager.is_completed (task_id ts : String) (fs : Option FileContent) :
    Except StoreError Bool × Option FileContent :=
  match StateManager.load task_id ts fs with
  | (Except.error e, fs') => (Except.error e, fs')
  | (Except.ok st, fs') =>
    match dictGet st "status" with
    | some (Value.str s) => (Except.ok (decide (s = Status.COMPLETED)), fs')
    | _ => (Except.ok false, fs')

/-- `StateManager.is_failed`: load; `get("status") == "FAILED"`. -/
def StateManager.is_failed (task_id ts : String) (fs : Option FileContent) :
    Except StoreError Bool × Option FileContent :=
  match StateManager.load task_id ts fs with
  | (Except.error e, fs') => (Except.error e, fs')
  | (Except.ok st, fs') =>
    match dictGet st "status" with
    | some (Value.str s) => (Except.ok (decide (s = Status.FAILED)), fs')
    | _ => (Except.ok false, fs')

/-- Phases of the write `StateManager.save` performs: `open(state_file, "w")`
truncates the existing file in place, then `json.dump` streams the new
record's text into it.  Between the open and the completed dump the file
holds the empty string or a proper prefix of the new JSON text, neither of
which parses as a JSON object. -/
inductive SavePhase where
  | beforeOpen
  | afterTruncate
  | completed

/-- The file content a concurrent or subsequent reader observes if the
process stops (crash, kill, or an exception out of `json.dump`) at the given
phase of `StateManager.save`'s in-place write of `new_state`. -/
def StateManager.save_visible (old : Option FileContent) (new_state : Obj) :
    SavePhase → Option FileContent
  | SavePhase.beforeOpen => old
  | SavePhase.afterTruncate => some (FileContent.bad "")
  | SavePhase.completed => some (FileContent.good new_state)

/-!
Embedding of `workflow/lib/llm_client.py`.  The external effect of an
`invoke` call is the request it issues (a subprocess command line for the
`claude`/`gemini` CLI backends, an HTTP POST for the `lfm` backend); the
model builds that request exactly as the source does and stops at the
process/network boundary.  Configuration values are strings, integers or
string lists; the `lfm` default `temperature: 0.7` is a float literal that
only ever flows verbatim into the HTTP body, so it is left out of the model.
-/

/-- One value of an `LLMClient` configuration dict. -/
inductive CfgVal where
  | s : String → CfgVal
  | n : Int → CfgVal
  | ls : List String → CfgVal

/-- `LLMClient.SUPPORTED_TYPES`. -/
def LLMClient.SUPPORTED_TYPES : List String := ["claude", "gemini", "lfm"]

/-- `LLMClient.DEFAULT_CONFIGS` as a map from backend kind to its default
configuration dict (`temperature` omitted, see the module comment). -/
def LLMClient.DEFAULT_CONFIGS (llm_type : String) : List (String × CfgVal) :=
  if llm_type = "claude" then
    [("command", CfgVal.ls ["claude", "-p"]),
     ("args", CfgVal.ls ["--print"]),
     ("timeout", CfgVal.n 120)]
  else if llm_type = "gemini" then
    [("command", CfgVal.ls ["gemini", "-p"]),
     ("args", CfgVal.ls []),
     ("timeout", CfgVal.n 120)]
  else if llm_type = "lfm" then
    [("url", CfgVal.s "http://localhost:8080/v1/chat/completions"),
     ("model", CfgVal.s "LFM2.5-1.2B-Instruct"),
     ("max_tokens", CfgVal.n 4096),
     ("timeout", CfgVal.n 60)]
  else []

/-- A constructed `LLMClient`: its backend kind and merged configuration. -/
structure LLMClient where
  llm_type : String
  config : List (String × CfgVal)

/-- The `ValueError` `LLMClient.__init__` raises on an unsupported backend
kind (the spec's `InvalidConfiguration`). -/
inductive LLMInitError where
  | valueError : String → LLMInitError
  deriving DecidableEq

/-- The `LLMError` exception of `llm_client.py`, with its message. -/
inductive LLMError where
  | llmError : String → LLMError
  deriving DecidableEq

/-- `LLMClient.__init__`: reject an unsupported `llm_type` immediately with a
`ValueError`; otherwise keep the defaults for that kind merged with the
caller's overrides (`config = {**DEFAULT_CONFIGS[llm_type], **(config or {})}`,
modelled with `none` for a `config` of `None`). -/
def LLMClient.init (llm_type : String) (config : Option (List (String × CfgVal))) :
    Except LLMInitError LLMClient :=
  if llm_type ∈ LLMClient.SUPPORTED_TYPES then
    Except.ok ⟨llm_type, dictMerge (LLMClient.DEFAULT_CONFIGS llm_type) (config.getD [])⟩
  else
    Except.error (LLMInitError.valueError
      ("Unsupported LLM type: " ++ llm_type ++ ". Supported types: " ++
        String.intercalate ", " LLMClient.SUPPORTED_TYPES))

/-- The request an `invoke` call hands to the external backend. -/
inductive BackendRequest where
  | cli : List String → Option Int → BackendRequest
  | http : String → List (String × String) → Option Int → BackendRequest

/-- The timeout a request carries (the `timeout=` argument of
`subprocess.run` or `urllib.request.urlopen`; `none` means no timeout). -/
def BackendRequest.timeoutSeconds : BackendRequest → Option Int
  | BackendRequest.cli _ t => t
  | BackendRequest.http _ _ t => t

/-- The configured `timeout` of a client (`self.config.get("timeout")`).
`DEFAULT_CONFIGS` always sets an integer here; a non-integer override is
outside the model. -/
def LLMClient.cfg_timeout (config : List (String × CfgVal)) : Option Int :=
  match dictGet config "timeout" with
  | some (CfgVal.n t) => some t
  | _ => none

/-- `effective_timeout = timeout or self.config.get("timeout")`: Python `or`
takes the right operand whenever the left is falsy, and the only falsy int
is 0, so a per-call timeout of 0 falls back to the configured value. -/
def LLMClient.effective_timeout (timeout : Option Int) (cfg : Option Int) : Option Int :=
  match timeout with
  | some t => if t = 0 then cfg else some t
  | none => cfg

/-- Prompt rewriting shared by `_invoke_claude` and `_invoke_gemini`:
`if system:` prepends the system prompt, and an empty-string system prompt
is falsy in Python just like `None`. -/
def LLMClient.with_system (system : Option String) (prompt : String) : String :=
  match system with
  | some s => if s = "" then prompt else "System: " ++ s ++ "\n\nUser: " ++ prompt
  | none => prompt

/-- The subprocess invocation `_invoke_claude` / `_invoke_gemini` build (the
two methods construct the command identically and differ only in the error
messages of the response path): `config["command"]` then the prompt then
`config.get("args", [])`.  A constructed client's config always holds
`command` (a missing key would be a `KeyError`, never reachable through
`LLMClient.init`). -/
def LLMClient.cli_request (config : List (String × CfgVal)) (prompt : String)
    (system : Option String) (effective : Option Int) : BackendRequest :=
  let command := match dictGet config "command" with
    | some (CfgVal.ls l) => l
    | _ => []
  let args := match dictGet config "args" with
    | some (CfgVal.ls l) => l
    | _ => []
  BackendRequest.cli (command ++ [LLMClient.with_system system prompt] ++ args) effective

/-- The HTTP request `_invoke_lfm` builds: POST to `config["url"]` with the
chat messages (system message only when `if system:` is truthy), with the
call's timeout. -/
def LLMClient.lfm_request (config : List (String × CfgVal)) (prompt : String)
    (system : Option String) (effective : Option Int) : BackendRequest :=
  let url := match dictGet config "url" with
    | some (CfgVal.s u) => u
    | _ => ""
  let messages :=
    (match system with
     | some s => if s = "" then [] else [("system", s)]
     | none => []) ++ [("user", prompt)]
  BackendRequest.http url messages effective

/-- `LLMClient.invoke`: compute the effective timeout, then dispatch on
`llm_type` to the backend request builder.  The final `else` mirrors the
source's unreachable `raise LLMError(f"Unknown LLM type: ...")`. -/
def LLMClient.invoke (c : LLMClient) (prompt : String) (system : Option String)
    (timeout : Option Int) : Except LLMError BackendRequest :=
  let effective := LLMClient.effective_timeout timeout (LLMClient.cfg_timeout c.config)
  if c.llm_type = "claude" then
    Except.ok (LLMClient.cli_request c.config prompt system effective)
  else if c.llm_type = "gemini" then
    Except.ok (LLMClient.cli_request c.config prompt system effective)
  else if c.llm_type = "lfm" then
    Except.ok (LLMClient.lfm_request c.config prompt system effective)
  else
    Except.error (LLMError.llmError ("Unknown LLM type: " ++ c.llm_type))

/-- A context file as `invoke_with_files` sees it: its display name
(`path.name`) and its content, `none` when the path does not exist (reading
an existing file is assumed to succeed; a read error raises the same
`LLMError` and adds nothing the claims touch). -/
structure ContextFile where
  name : String
  content : Option String

/-- The labeled block `invoke_with_files` appends for one context file. -/
def LLMClient.context_part (name content : String) : String :=
  "--- File: " ++ name ++ " ---\n" ++ content ++ "\n--- End of " ++ name ++ " ---"

/-- The context-building loop of `invoke_with_files`: each file in order,
raising `LLMError` at the first nonexistent file. -/
def LLMClient.build_context : List ContextFile → Except LLMError (List String)
  | [] => Except.ok []
  | f :: rest =>
    match f.content with
    | none => Except.error (LLMError.llmError ("Context file not found: " ++ f.name))
    | some content =>
      match LLMClient.build_context rest with
      | Except.error e => Except.error e
      | Except.ok parts => Except.ok (LLMClient.context_part f.name content :: parts)

/-- `LLMClient.invoke_with_files`: build the labeled context blocks; when any
were produced (`if context_parts:`) wrap them ahead of the prompt, otherwise
pass the prompt through unmodified; then delegate to `invoke` with the same
system prompt and timeout. -/
def LLMClient.invoke_with_files (c : LLMClient) (prompt : String)
    (context_files : List ContextFile) (system : Option String)
    (timeout : Option Int) : Except LLMError BackendRequest :=
  match LLMClient.build_context context_files with
  | Except.error e => Except.error e
  | Except.ok parts =>
    let full_prompt :=
      if parts.isEmpty then prompt
      else "Context files:\n\n" ++ String.intercalate "\n\n" parts ++
        "\n\nUser request:\n" ++ prompt
    LLMClient.invoke c full_prompt system timeout

/-!
Definitions used only to state the claims: the spec-side description of the
step scan, well-formedness checkers for hypotheses, and the escalation
invariant.
-/

/-- The `status` string of step `n` in `steps`, when the step is present,
its record is a dict and its `status` is a string. -/
def StateManager.step_status (steps : Obj) (n : String) : Option String :=
  match dictGet steps n with
  | some (Value.obj r) =>
    match dictGet r "status" with
    | some (Value.str s) => some s
    | _ => none
  | _ => none

/-- Modelled from the spec's words, for comparison with the code's
`get_current_step`: scan the fixed step order and return the first step
whose status is `in_progress`; if none, the first whose status is
`pending`; if none of either, the last step name, `review`. -/
def spec_current_step (steps : Obj) : String :=
  match StateManager.step_order.find?
      (fun n => decide (StateManager.step_status steps n = some "in_progress")) with
  | some n => n
  | none =>
    match StateManager.step_order.find?
        (fun n => decide (StateManager.step_status steps n = some "pending")) with
    | some n => n
    | none => "review"

/-- Step `n` is absent from `steps` or its record is a dict (so that the
Python scan does not raise on it). -/
def StateManager.step_wf (steps : Obj) (n : String) : Bool :=
  match dictGet steps n with
  | none => true
  | some (Value.obj _) => true
  | some _ => false

/-- Every fixed step that is present in `steps` has a dict record. -/
def StateManager.steps_wf (steps : Obj) : Bool :=
  StateManager.step_order.all (StateManager.step_wf steps)

/-- The escalation invariant of the data model: `escalation` is a dict whose
integer `count` equals the length of its list `history`. -/
def StateManager.esc_inv (st : Obj) : Bool :=
  match dictGet st "escalation" with
  | some (Value.obj esc) =>
    match dictGet esc "count", dictGet esc "history" with
    | some (Value.int c), some (Value.list h) => decide (c = (h.length : Int))
    | _, _ => false
  | _ => false

/-!
Lemmas about the dict embedding.
-/

theorem dictGet_dictSet_self {α : Type} (o : List (String × α)) (k : String) (v : α) :
    dictGet (dictSet o k v) k = some v := by
  induction o with
  | nil => simp [dictGet, dictSet]
  | cons p rest ih =>
    obtain ⟨k1, w⟩ := p
    by_cases h : k1 = k
    · simp [dictGet, dictSet, h]
    · simp [dictGet, dictSet, h, ih]

theorem dictGet_dictSet_ne {α : Type} (o : List (String × α)) (k k' : String) (v : α)
    (h : k ≠ k') : dictGet (dictSet o k v) k' = dictGet o k' := by
  induction o with
  | nil => simp [dictGet, dictSet, h]
  | cons p rest ih =>
    obtain ⟨k1, w⟩ := p
    by_cases h1 : k1 = k
    · simp [dictGet, dictSet, h1, h]
    · by_cases h2 : k1 = k'
      · simp [dictGet, dictSet, h1, h2, Ne.symm h]
      · simp [dictGet, dictSet, h1, h2, ih]

theorem dictGet_foldl_set {α : Type} (kwargs : List (String × α))
    (r : List (String × α)) (k : String) :
    dictGet (kwargs.foldl (fun acc p => dictSet acc p.1 p.2) r) k =
      (lastBinding kwargs k).or (dictGet r k) := by
  induction kwargs generalizing r with
  | nil => simp [lastBinding]
  | cons p rest ih =>
    simp only [List.foldl_cons, lastBinding, ih]
    cases hlb : lastBinding rest k with
    | some v => simp
    | none =>
      by_cases hp : p.1 = k
      · simp [hp, dictGet_dictSet_self]
      · simp [hp, dictGet_dictSet_ne _ _ _ _ hp]

/-!
Claim theorems.
-/

/-- C2: for every task and every unparsable persisted content, `load` fails
with the parse error (`CorruptState`), an error distinct from
`StorageError`, attempts no repair or re-initialization, and leaves the file
content exactly as it was. -/
theorem load_corrupt_state (task_id ts s : String) :
    StateManager.load task_id ts (some (FileContent.bad s)) =
      (Except.error StoreError.corruptState, some (FileContent.bad s)) ∧
    (StoreError.corruptState = StoreError.storageError) = False :=
  ⟨rfl, eq_false (by decide)⟩

/-- C3: for a task identifier with no persisted record, `load` returns and
persists a record with `status = INIT`, all five fixed steps in their
documented default shape, `retry_count = 0`,
`escalation = {count: 0, history: []}` and `max_retries = 3`. -/
theorem load_fresh_initializes_defaults (task_id ts : String) :
    ∃ st : Obj,
      StateManager.load task_id ts none = (Except.ok st, some (FileContent.good st)) ∧
      dictGet st "task_id" = some (Value.str task_id) ∧
      dictGet st "status" = some (Value.str Status.INIT) ∧
      dictGet st "retry_count" = some (Value.int 0) ∧
      dictGet st "max_retries" = some (Value.int 3) ∧
      dictGet st "escalation" =
        some (Value.obj [("count", Value.int 0), ("history", Value.list [])]) ∧
      ∃ steps : Obj, dictGet st "steps" = some (Value.obj steps) ∧
        dictGet steps "design" = some (Value.obj [("status", Value.str "pending")]) ∧
        dictGet steps "test_cases" = some (Value.obj [("status", Value.str "pending")]) ∧
        dictGet steps "implementation" =
          some (Value.obj [("status", Value.str "pending"), ("attempt", Value.int 0)]) ∧
        dictGet steps "testing" =
          some (Value.obj [("status", Value.str "pending"), ("results", Value.list [])]) ∧
        dictGet steps "review" = some (Value.obj [("status", Value.str "pending")]) :=
  ⟨_, rfl, rfl, rfl, rfl, rfl, rfl, _, rfl, rfl, rfl, rfl, rfl, rfl⟩

/-- C10: invoking `invoke_with_files` with an empty list of context files is
the same call as `invoke` on the same prompt, system prompt and timeout: the
prompt is passed through unmodified, with no context preamble. -/
theorem invoke_with_files_empty_eq_invoke (c : LLMClient) (prompt : String)
    (system : Option String) (timeout : Option Int) :
    LLMClient.invoke_with_files c prompt [] system timeout =
      LLMClient.invoke c prompt system timeout := rfl

/-- C9: constructing the client with a backend kind outside the supported
set fails immediately with the construction-time error (the spec's
`InvalidConfiguration`), and constructing with a supported kind never
produces that error. -/
theorem llm_client_init_supported (llm_type : String)
    (config : Option (List (String × CfgVal))) :
    (llm_type ∈ LLMClient.SUPPORTED_TYPES →
      ∃ c : LLMClient, LLMClient.init llm_type config = Except.ok c ∧
        c.llm_type = llm_type) ∧
    (llm_type ∉ LLMClient.SUPPORTED_TYPES →
      LLMClient.init llm_type config = Except.error (LLMInitError.valueError
        ("Unsupported LLM type: " ++ llm_type ++
          ". Supported types: claude, gemini, lfm"))) := by
  constructor
  · intro h
    refine ⟨⟨llm_type, dictMerge (LLMClient.DEFAULT_CONFIGS llm_type) (config.getD [])⟩,
      ?_, rfl⟩
    simp [LLMClient.init, h]
  · intro h
    unfold LLMClient.init
    rw [if_neg h, String.append_assoc]
    exact rfl

/-- Witness for C9 at the concrete kinds "claude" (supported) and "mistral"
(unsupported). -/
theorem llm_client_init_supported_witness :
    (∃ c : LLMClient, LLMClient.init "claude" none = Except.ok c ∧
      c.llm_type = "claude") ∧
    LLMClient.init "mistral" none = Except.error (LLMInitError.valueError
      "Unsupported LLM type: mistral. Supported types: claude, gemini, lfm") :=
  ⟨(llm_client_init_supported "claude" none).1 (by decide),
   (llm_client_init_supported "mistral" none).2 (by decide)⟩

/-- C8 counterexample: a per-call timeout of 0 seconds is provided, yet the
subprocess is run with the configured default of 120 seconds — the provided
value is not the effective timeout of the call, refuting the claim as
stated. -/
theorem invoke_timeout_zero_counterexample :
    LLMClient.invoke ⟨"claude", LLMClient.DEFAULT_CONFIGS "claude"⟩ "hi" none (some 0) =
      Except.ok (BackendRequest.cli ["claude", "-p", "hi", "--print"] (some 120)) ∧
    (some (120 : Int) = some (0 : Int)) = False :=
  ⟨rfl, eq_false (by decide)⟩

/-- C8 amended: a provided nonzero per-call timeout is the effective timeout
of the call, overriding the configured default; when no per-call timeout is
provided the configured default applies; and a provided timeout of 0 is
falsy under Python `or`, so it too falls back to the configured default. -/
theorem invoke_timeout_override_amended (c : LLMClient) (prompt : String)
    (system : Option String) (h : c.llm_type ∈ LLMClient.SUPPORTED_TYPES) :
    (∀ k : Int, k ≠ 0 →
      ∃ r, LLMClient.invoke c prompt system (some k) = Except.ok r ∧
        r.timeoutSeconds = some k) ∧
    (∃ r, LLMClient.invoke c prompt system none = Except.ok r ∧
      r.timeoutSeconds = LLMClient.cfg_timeout c.config) ∧
    (∃ r, LLMClient.invoke c prompt system (some 0) = Except.ok r ∧
      r.timeoutSeconds = LLMClient.cfg_timeout c.config) := by
  have hd : c.llm_type = "claude" ∨ c.llm_type = "gemini" ∨ c.llm_type = "lfm" := by
    simpa [LLMClient.SUPPORTED_TYPES] using h
  have hinv : ∀ t : Option Int, ∃ r, LLMClient.invoke c prompt system t = Except.ok r ∧
      r.timeoutSeconds =
        LLMClient.effective_timeout t (LLMClient.cfg_timeout c.config) := by
    intro t
    rcases hd with h1 | h1 | h1
    · exact ⟨LLMClient.cli_request c.config prompt system
        (LLMClient.effective_timeout t (LLMClient.cfg_timeout c.config)),
        by simp [LLMClient.invoke, h1], rfl⟩
    · exact ⟨LLMClient.cli_request c.config prompt system
        (LLMClient.effective_timeout t (LLMClient.cfg_timeout c.config)),
        by simp [LLMClient.invoke, h1], rfl⟩
    · exact ⟨LLMClient.lfm_request c.config prompt system
        (LLMClient.effective_timeout t (LLMClient.cfg_timeout c.config)),
        by simp [LLMClient.invoke, h1], rfl⟩
  refine ⟨fun k hk => ?_, ?_, ?_⟩
  · obtain ⟨r, h1, h2⟩ := hinv (some k)
    exact ⟨r, h1, by rw [h2]; simp [LLMClient.effective_timeout, hk]⟩
  · obtain ⟨r, h1, h2⟩ := hinv none
    exact ⟨r, h1, by rw [h2]; rfl⟩
  · obtain ⟨r, h1, h2⟩ := hinv (some 0)
    exact ⟨r, h1, by rw [h2]; simp [LLMClient.effective_timeout]⟩

/-- Witness for C8's amended theorem: a default claude client invoked with a
per-call timeout of 7 issues its CLI call with timeout 7, not the configured
120. -/
theorem invoke_timeout_override_witness :
    ∃ r, LLMClient.invoke ⟨"claude", LLMClient.DEFAULT_CONFIGS "claude"⟩ "hi" none (some 7) =
        Except.ok r ∧ r.timeoutSeconds = some 7 :=
  (invoke_timeout_override_amended ⟨"claude", LLMClient.DEFAULT_CONFIGS "claude"⟩
    "hi" none (by decide)).1 7 (by decide)

/-- C1 (refuted by the code): `StateManager.save` opens `state.json` with
mode "w", truncating the existing record in place, before `json.dump`
writes the new text (state_manager.py lines 96-97).  At the point after the
truncation a reader sees an empty file: `load` reports it as a parse error,
it is not the complete previous record, and it is not a complete (parseable)
record at all — so an interrupted or failing save exposes a state that is
neither the old nor the new record, contrary to the claim. -/
theorem save_inplace_write_not_atomic :
    StateManager.save_visible
        (some (FileContent.good (StateManager.init_state "t1" "ts0" 3)))
        ((StateManager.save
          (dictSet (StateManager.init_state "t1" "ts0" 3) "status" (Value.str "DESIGNING"))
          "ts1").1)
        SavePhase.afterTruncate = some (FileContent.bad "") ∧
    (StateManager.load "t1" "ts2" (some (FileContent.bad ""))).1 =
      Except.error StoreError.corruptState ∧
    (FileContent.bad "" = FileContent.good (StateManager.init_state "t1" "ts0" 3)) = False ∧
    (∃ v : Obj, FileContent.bad "" = FileContent.good v) = False :=
  ⟨rfl, rfl,
   eq_false (fun hx => FileContent.noConfusion hx),
   eq_false (fun hx => by obtain ⟨v, hv⟩ := hx; exact FileContent.noConfusion hv)⟩

/-- C7: `can_retry` returns `retry_count < max_retries`, reading an absent
`retry_count` as 0 and an absent `max_retries` as 3 (so it is true exactly
while the retry count is below the bound and false once equal or greater),
and it leaves the persisted record untouched. -/
theorem can_retry_spec (task_id ts : String) (st : Obj) (rc mr : Int)
    (hrc : (dictGet st "retry_count").getD (Value.int 0) = Value.int rc)
    (hmr : (dictGet st "max_retries").getD (Value.int 3) = Value.int mr) :
    StateManager.can_retry task_id ts (some (FileContent.good st)) =
      (Except.ok (decide (rc < mr)), some (FileContent.good st)) := by
  simp [StateManager.can_retry, StateManager.load, hrc, hmr, pyLt, pyNum]

/-- Witness for C7 at the freshly initialized record: `retry_count = 0`,
`max_retries = 3`, so `can_retry` answers true. -/
theorem can_retry_spec_witness :
    StateManager.can_retry "t1" "ts1"
        (some (FileContent.good (StateManager.init_state "t1" "ts0" 3))) =
      (Except.ok true, some (FileContent.good (StateManager.init_state "t1" "ts0" 3))) :=
  can_retry_spec "t1" "ts1" (StateManager.init_state "t1" "ts0" 3) 0 3 rfl rfl

/-- The scanning loop of `get_current_step` agrees with a `find?` over the
step order on the step-status view, for steps whose present records are
dicts. -/
theorem scan_steps_eq_find (steps : Obj) (target : String) (l : List String)
    (h : ∀ n ∈ l, StateManager.step_wf steps n = true) :
    StateManager.scan_steps steps target l =
      Except.ok (l.find?
        (fun n => decide (StateManager.step_status steps n = some target))) := by
  induction l with
  | nil => rfl
  | cons n rest ih =>
    have hn : StateManager.step_wf steps n = true := h n (List.mem_cons_self n rest)
    have hrest : ∀ m ∈ rest, StateManager.step_wf steps m = true :=
      fun m hm => h m (List.mem_cons_of_mem n hm)
    rw [List.find?_cons]
    cases hg : dictGet steps n with
    | none =>
      have hss : StateManager.step_status steps n = none := by
        simp [StateManager.step_status, hg]
      simp [StateManager.scan_steps, hg, hss, ih hrest]
    | some v =>
      cases v with
      | str s => simp [StateManager.step_wf, hg] at hn
      | int i => simp [StateManager.step_wf, hg] at hn
      | bool b => simp [StateManager.step_wf, hg] at hn
      | null => simp [StateManager.step_wf, hg] at hn
      | list xs => simp [StateManager.step_wf, hg] at hn
      | obj r =>
        cases hs : dictGet r "status" with
        | none =>
          have hss : StateManager.step_status steps n = none := by
            simp [StateManager.step_status, hg, hs]
          simp [StateManager.scan_steps, hg, hs, hss, ih hrest]
        | some w =>
          cases w with
          | str s =>
            have hss : StateManager.step_status steps n = some s := by
              simp [StateManager.step_status, hg, hs]
            by_cases he : s = target
            · simp [StateManager.scan_steps, hg, hs, hss, he]
            · simp [StateManager.scan_steps, hg, hs, hss, he, ih hrest]
          | int i =>
            have hss : StateManager.step_status steps n = none := by
              simp [StateManager.step_status, hg, hs]
            simp [StateManager.scan_steps, hg, hs, hss, ih hrest]
          | bool b =>
            have hss : StateManager.step_status steps n = none := by
              simp [StateManager.step_status, hg, hs]
            simp [StateManager.scan_steps, hg, hs, hss, ih hrest]
          | null =>
            have hss : StateManager.step_status steps n = none := by
              simp [StateManager.step_status, hg, hs]
            simp [StateManager.scan_steps, hg, hs, hss, ih hrest]
          | list xs =>
            have hss : StateManager.step_status steps n = none := by
              simp [StateManager.step_status, hg, hs]
            simp [StateManager.scan_steps, hg, hs, hss, ih hrest]
          | obj r2 =>
            have hss : StateManager.step_status steps n = none := by
              simp [StateManager.step_status, hg, hs]
            simp [StateManager.scan_steps, hg, hs, hss, ih hrest]

/-- C4: for every loadable record whose present step records are dicts,
`get_current_step` returns exactly what the spec's scan describes — the
first `in_progress` step in the fixed order, else the first `pending` step,
else the last step name `review` — and performs no persisted mutation. -/
theorem get_current_step_spec (task_id ts : String) (st steps : Obj)
    (hsteps : dictGet st "steps" = some (Value.obj steps))
    (hwf : StateManager.steps_wf steps = true) :
    StateManager.get_current_step task_id ts (some (FileContent.good st)) =
      (Except.ok (spec_current_step steps), some (FileContent.good st)) := by
  have hwf' : ∀ n ∈ StateManager.step_order, StateManager.step_wf steps n = true := by
    intro n hn
    exact List.all_eq_true.mp hwf n hn
  simp only [StateManager.get_current_step, StateManager.load, hsteps]
  rw [scan_steps_eq_find steps "in_progress" _ hwf',
    scan_steps_eq_find steps "pending" _ hwf']
  unfold spec_current_step
  cases StateManager.step_order.find?
      (fun n => decide (StateManager.step_status steps n = some "in_progress")) with
  | some n => rfl
  | none =>
    cases StateManager.step_order.find?
        (fun n => decide (StateManager.step_status steps n = some "pending")) with
    | some n => rfl
    | none => rfl

/-- Witness for C4 at the freshly initialized record: every step is pending,
so the scan answers the first step of the order, `design`. -/
theorem get_current_step_spec_witness :
    StateManager.get_current_step "t1" "ts1"
        (some (FileContent.good (StateManager.init_state "t1" "ts0" 3))) =
      (Except.ok "design", some (FileContent.good (StateManager.init_state "t1" "ts0" 3))) :=
  get_current_step_spec "t1" "ts1" (StateManager.init_state "t1" "ts0" 3)
    [("design", Value.obj [("status", Value.str "pending")]),
     ("test_cases", Value.obj [("status", Value.str "pending")]),
     ("implementation", Value.obj
       [("status", Value.str "pending"), ("attempt", Value.int 0)]),
     ("testing", Value.obj
       [("status", Value.str "pending"), ("results", Value.list [])]),
     ("review", Value.obj [("status", Value.str "pending")])]
    rfl rfl

/-- Core description of `update_step` on a loadable state whose `steps`
field is a dict and whose target step record is a dict or absent: the merge
performed, the persisted result, and the frame of untouched fields. -/
theorem update_step_frame_core (task_id ts step_name : String)
    (kwargs : List (String × Value)) (st steps r0 : Obj)
    (hsteps : dictGet st "steps" = some (Value.obj steps))
    (hr0 : (dictGet steps step_name).getD (Value.obj []) = Value.obj r0) :
    ∃ st' steps' r' : Obj,
      StateManager.update_step task_id ts step_name kwargs
          (some (FileContent.good st)) =
        (Except.ok st', some (FileContent.good st')) ∧
      dictGet st' "updated_at" = some (Value.str ts) ∧
      (∀ k : String, k ≠ "steps" → k ≠ "updated_at" → dictGet st' k = dictGet st k) ∧
      dictGet st' "steps" = some (Value.obj steps') ∧
      (∀ n : String, n ≠ step_name → dictGet steps' n = dictGet steps n) ∧
      dictGet steps' step_name = some (Value.obj r') ∧
      (∀ k : String, dictGet r' k =
        (lastBinding kwargs k).or (dictGet r0 k)) := by
  cases hp : dictGet steps step_name with
  | none =>
    have hr : r0 = [] := by
      rw [hp] at hr0
      simpa [eq_comm] using hr0
    subst hr
    refine ⟨dictSet (dictSet st "steps"
        (Value.obj (dictSet (dictSet steps step_name (Value.obj [])) step_name
          (Value.obj (kwargs.foldl (fun acc p => dictSet acc p.1 p.2) [])))))
        "updated_at" (Value.str ts),
      dictSet (dictSet steps step_name (Value.obj [])) step_name
        (Value.obj (kwargs.foldl (fun acc p => dictSet acc p.1 p.2) [])),
      kwargs.foldl (fun acc p => dictSet acc p.1 p.2) [],
      ?_, ?_, ?_, ?_, ?_, ?_, ?_⟩
    · simp only [StateManager.update_step, StateManager.load, hsteps, hp,
        dictGet_dictSet_self]
      rfl
    · exact dictGet_dictSet_self _ _ _
    · intro k hk1 hk2
      rw [dictGet_dictSet_ne _ _ _ _ (Ne.symm hk2), dictGet_dictSet_ne _ _ _ _ (Ne.symm hk1)]
    · rw [dictGet_dictSet_ne _ _ _ _ (by decide), dictGet_dictSet_self]
    · intro n hn
      rw [dictGet_dictSet_ne _ _ _ _ (Ne.symm hn), dictGet_dictSet_ne _ _ _ _ (Ne.symm hn)]
    · exact dictGet_dictSet_self _ _ _
    · intro k
      rw [dictGet_foldl_set]
  | some w =>
    have hw : w = Value.obj r0 := by
      rw [hp] at hr0
      simpa using hr0
    subst hw
    refine ⟨dictSet (dictSet st "steps"
        (Value.obj (dictSet steps step_name
          (Value.obj (kwargs.foldl (fun acc p => dictSet acc p.1 p.2) r0)))))
        "updated_at" (Value.str ts),
      dictSet steps step_name
        (Value.obj (kwargs.foldl (fun acc p => dictSet acc p.1 p.2) r0)),
      kwargs.foldl (fun acc p => dictSet acc p.1 p.2) r0,
      ?_, ?_, ?_, ?_, ?_, ?_, ?_⟩
    · simp only [StateManager.update_step, StateManager.load, hsteps, hp]
      rfl
    · exact dictGet_dictSet_self _ _ _
    · intro k hk1 hk2
      rw [dictGet_dictSet_ne _ _ _ _ (Ne.symm hk2), dictGet_dictSet_ne _ _ _ _ (Ne.symm hk1)]
    · rw [dictGet_dictSet_ne _ _ _ _ (by decide), dictGet_dictSet_self]
    · intro n hn
      rw [dictGet_dictSet_ne _ _ _ _ (Ne.symm hn)]
    · exact dictGet_dictSet_self _ _ _
    · intro k
      rw [dictGet_foldl_set]

/-- C5: `update_step` creates an empty record for an absent step name, merges
every given key into exactly that step's record (later bindings for the same
key overwriting earlier ones and existing keys, new keys added), and leaves
every other step's record and every other top-level field except
`updated_at` unchanged; the updated record is persisted. -/
theorem update_step_merge_frame (task_id ts step_name : String)
    (kwargs : List (String × Value)) (st steps r0 : Obj)
    (hsteps : dictGet st "steps" = some (Value.obj steps))
    (hr0 : (dictGet steps step_name).getD (Value.obj []) = Value.obj r0) :
    ∃ st' steps' r' : Obj,
      StateManager.update_step task_id ts step_name kwargs
          (some (FileContent.good st)) =
        (Except.ok st', some (FileContent.good st')) ∧
      dictGet st' "updated_at" = some (Value.str ts) ∧
      (∀ k : String, k ≠ "steps" → k ≠ "updated_at" → dictGet st' k = dictGet st k) ∧
      dictGet st' "steps" = some (Value.obj steps') ∧
      (∀ n : String, n ≠ step_name → dictGet steps' n = dictGet steps n) ∧
      dictGet steps' step_name = some (Value.obj r') ∧
      (∀ k : String, dictGet r' k =
        (lastBinding kwargs k).or (dictGet r0 k)) :=
  update_step_frame_core task_id ts step_name kwargs st steps r0 hsteps hr0

/-- Witness for C5 at the spec's own example: updating `implementation` with
status `in_progress` and attempt 1 on a freshly initialized record. -/
theorem update_step_merge_frame_witness :
    ∃ st' steps' r' : Obj,
      StateManager.update_step "t1" "ts1" "implementation"
          [("status", Value.str "in_progress"), ("attempt", Value.int 1)]
          (some (FileContent.good (StateManager.init_state "t1" "ts0" 3))) =
        (Except.ok st', some (FileContent.good st')) ∧
      dictGet st' "updated_at" = some (Value.str "ts1") ∧
      (∀ k : String, k ≠ "steps" → k ≠ "updated_at" →
        dictGet st' k = dictGet (StateManager.init_state "t1" "ts0" 3) k) ∧
      dictGet st' "steps" = some (Value.obj steps') ∧
      (∀ n : String, n ≠ "implementation" →
        dictGet steps' n = dictGet
          [("design", Value.obj [("status", Value.str "pending")]),
           ("test_cases", Value.obj [("status", Value.str "pending")]),
           ("implementation", Value.obj
             [("status", Value.str "pending"), ("attempt", Value.int 0)]),
           ("testing", Value.obj
             [("status", Value.str "pending"), ("results", Value.list [])]),
           ("review", Value.obj [("status", Value.str "pending")])] n) ∧
      dictGet steps' "implementation" = some (Value.obj r') ∧
      (∀ k : String, dictGet r' k =
        (lastBinding [("status", Value.str "in_progress"), ("attempt", Value.int 1)] k).or
          (dictGet [("status", Value.str "pending"), ("attempt", Value.int 0)] k)) :=
  update_step_merge_frame "t1" "ts1" "implementation"
    [("status", Value.str "in_progress"), ("attempt", Value.int 1)]
    (StateManager.init_state "t1" "ts0" 3)
    [("design", Value.obj [("status", Value.str "pending")]),
     ("test_cases", Value.obj [("status", Value.str "pending")]),
     ("implementation", Value.obj
       [("status", Value.str "pending"), ("attempt", Value.int 0)]),
     ("testing", Value.obj
       [("status", Value.str "pending"), ("results", Value.list [])]),
     ("review", Value.obj [("status", Value.str "pending")])]
    [("status", Value.str "pending"), ("attempt", Value.int 0)]
    rfl rfl

/-- Two records with the same `escalation` field satisfy the escalation
invariant alike. -/
theorem esc_inv_get_congr {st st' : Obj}
    (h : dictGet st' "escalation" = dictGet st "escalation") :
    StateManager.esc_inv st' = StateManager.esc_inv st := by
  unfold StateManager.esc_inv
  rw [h]

/-- Setting any field other than `escalation` does not change the
escalation invariant. -/
theorem esc_inv_dictSet_ne (st : Obj) (k : String) (v : Value)
    (h : k ≠ "escalation") :
    StateManager.esc_inv (dictSet st k v) = StateManager.esc_inv st :=
  esc_inv_get_congr (dictGet_dictSet_ne _ _ _ _ h)

/-- The escalation invariant holds on a freshly initialized record. -/
theorem esc_inv_init (task_id ts : String) (mr : Int) :
    StateManager.esc_inv (StateManager.init_state_op task_id ts mr).1 = true := rfl

/-- `save` only stamps `updated_at`, so it preserves the invariant. -/
theorem esc_inv_save (st : Obj) (ts : String)
    (hinv : StateManager.esc_inv st = true) :
    StateManager.esc_inv (StateManager.save st ts).1 = true := by
  have h := esc_inv_dictSet_ne st "updated_at" (Value.str ts) (by decide)
  exact h.trans hinv

/-- `update_status` touches only `status` and `updated_at`, so it preserves
the invariant. -/
theorem esc_inv_update_status (task_id ts s : String) (st st' : Obj)
    (fs' : Option FileContent)
    (heq : StateManager.update_status task_id ts s (some (FileContent.good st)) =
      (Except.ok st', fs'))
    (hinv : StateManager.esc_inv st = true) :
    StateManager.esc_inv st' = true := by
  have h1 : StateManager.update_status task_id ts s (some (FileContent.good st)) =
      (Except.ok (dictSet (dictSet st "status" (Value.str s)) "updated_at" (Value.str ts)),
        some (FileContent.good
          (dictSet (dictSet st "status" (Value.str s)) "updated_at" (Value.str ts)))) := rfl
  rw [h1] at heq
  injection heq with ha hb
  injection ha with hc
  rw [← hc, esc_inv_dictSet_ne _ _ _ (by decide), esc_inv_dictSet_ne _ _ _ (by decide)]
  exact hinv


/-- Saving a state after setting one non-`escalation` field preserves the
invariant (`save` itself only stamps `updated_at`). -/
theorem esc_inv_save_set (st : Obj) (k : String) (v : Value) (ts : String)
    (hk : k ≠ "escalation") (hinv : StateManager.esc_inv st = true) :
    StateManager.esc_inv (StateManager.save (dictSet st k v) ts).1 = true := by
  show StateManager.esc_inv (dictSet (dictSet st k v) "updated_at" (Value.str ts)) = true
  rw [esc_inv_dictSet_ne _ _ _ (by decide), esc_inv_dictSet_ne _ _ _ hk]
  exact hinv

/-- `update_step` touches only the `steps` field and `updated_at`, so on
every state it succeeds on (a dict `steps` field whose target entry is a
dict or absent) it preserves the invariant. -/
theorem esc_inv_update_step (task_id ts step_name : String)
    (kwargs : List (String × Value)) (st steps r0 : Obj)
    (hsteps : dictGet st "steps" = some (Value.obj steps))
    (hr0 : (dictGet steps step_name).getD (Value.obj []) = Value.obj r0)
    (st' : Obj) (fs' : Option FileContent)
    (heq : StateManager.update_step task_id ts step_name kwargs
      (some (FileContent.good st)) = (Except.ok st', fs'))
    (hinv : StateManager.esc_inv st = true) :
    StateManager.esc_inv st' = true := by
  obtain ⟨stA, stepsA, rA, h1, h2, h3, h4, h5, h6, h7⟩ :=
    update_step_frame_core task_id ts step_name kwargs st steps r0 hsteps hr0
  rw [h1] at heq
  injection heq with ha hb
  injection ha with hc
  rw [← hc, esc_inv_get_congr (h3 "escalation" (by decide) (by decide))]
  exact hinv

/-- `increment_retry` touches only `retry_count` and `updated_at`, so it
preserves the invariant. -/
theorem esc_inv_increment_retry (task_id ts : String) (st st' : Obj)
    (fs' : Option FileContent)
    (heq : StateManager.increment_retry task_id ts (some (FileContent.good st)) =
      (Except.ok st', fs'))
    (hinv : StateManager.esc_inv st = true) :
    StateManager.esc_inv st' = true := by
  revert heq
  simp only [StateManager.increment_retry, StateManager.load]
  cases hn : pyNum ((dictGet st "retry_count").getD (Value.int 0)) with
  | none => intro heq; simp at heq
  | some n =>
    intro heq
    injection heq with ha hb
    injection ha with hc
    rw [← hc]
    exact esc_inv_save_set st "retry_count" (Value.int (n + 1)) ts (by decide) hinv

/-- `add_escalation` on a state whose `escalation` holds an integer `count`
and a list `history` appends exactly one entry to the history, increments
`count` by exactly one, and persists the result. -/
theorem add_escalation_appends (task_id ts reason : String) (response : Option String)
    (st esc : Obj) (c : Int) (hist : List Value)
    (hesc : dictGet st "escalation" = some (Value.obj esc))
    (hc : dictGet esc "count" = some (Value.int c))
    (hh : dictGet esc "history" = some (Value.list hist)) :
    ∃ st' esc' : Obj,
      StateManager.add_escalation task_id ts reason response
          (some (FileContent.good st)) =
        (Except.ok st', some (FileContent.good st')) ∧
      dictGet st' "escalation" = some (Value.obj esc') ∧
      dictGet esc' "count" = some (Value.int (c + 1)) ∧
      dictGet esc' "history" = some (Value.list
        (hist ++ [Value.obj (StateManager.escalation_entry ts reason response)])) := by
  refine ⟨dictSet (dictSet st "escalation"
      (Value.obj (dictSet (dictSet esc "count" (Value.int (c + 1))) "history"
        (Value.list (hist ++ [Value.obj (StateManager.escalation_entry ts reason response)])))))
      "updated_at" (Value.str ts),
    dictSet (dictSet esc "count" (Value.int (c + 1))) "history"
      (Value.list (hist ++ [Value.obj (StateManager.escalation_entry ts reason response)])),
    ?_, ?_, ?_, ?_⟩
  · simp only [StateManager.add_escalation, StateManager.load, hesc, hc, hh,
      Option.getD_some, pyNum]
    rfl
  · rw [dictGet_dictSet_ne _ _ _ _ (by decide), dictGet_dictSet_self]
  · rw [dictGet_dictSet_ne _ _ _ _ (by decide), dictGet_dictSet_self]
  · exact dictGet_dictSet_self _ _ _

/-- The escalation entry carries `timestamp` and `reason` always, and a
`response` field exactly when a response was supplied. -/
theorem escalation_entry_shape (ts reason : String) (response : Option String) :
    dictGet (StateManager.escalation_entry ts reason response) "timestamp" =
      some (Value.str ts) ∧
    dictGet (StateManager.escalation_entry ts reason response) "reason" =
      some (Value.str reason) ∧
    dictGet (StateManager.escalation_entry ts reason response) "response" =
      Option.map Value.str response := by
  cases response <;> exact ⟨rfl, rfl, rfl⟩

/-- `add_escalation` preserves the escalation invariant. -/
theorem esc_inv_add_escalation (task_id ts reason : String) (response : Option String)
    (st st' : Obj)
    (hinv : StateManager.esc_inv st = true)
    (heq : (StateManager.add_escalation task_id ts reason response
      (some (FileContent.good st))).1 = Except.ok st') :
    StateManager.esc_inv st' = true := by
  unfold StateManager.esc_inv at hinv
  cases hesc : dictGet st "escalation" with
  | none => rw [hesc] at hinv; cases hinv
  | some v =>
    rw [hesc] at hinv
    cases v with
    | str s => cases hinv
    | int i => cases hinv
    | bool b => cases hinv
    | null => cases hinv
    | list xs => cases hinv
    | obj esc =>
      have hinv2 : (match dictGet esc "count", dictGet esc "history" with
          | some (Value.int c), some (Value.list h) => decide (c = (h.length : Int))
          | _, _ => false) = true := hinv
      cases hc : dictGet esc "count" with
      | none => rw [hc] at hinv2; exact Bool.noConfusion hinv2
      | some w =>
        rw [hc] at hinv2
        cases hh : dictGet esc "history" with
        | none =>
          rw [hh] at hinv2
          cases w with
          | int c => exact Bool.noConfusion hinv2
          | str s => exact Bool.noConfusion hinv2
          | bool b => exact Bool.noConfusion hinv2
          | null => exact Bool.noConfusion hinv2
          | list l2 => exact Bool.noConfusion hinv2
          | obj o => exact Bool.noConfusion hinv2
        | some u =>
          rw [hh] at hinv2
          cases w with
          | int c =>
            cases u with
            | list hist =>
              have hlen : c = (hist.length : Int) := of_decide_eq_true hinv2
              obtain ⟨stA, escA, h1, h2, h3, h4⟩ :=
                add_escalation_appends task_id ts reason response st esc c hist hesc hc hh
              rw [h1] at heq
              injection heq with hc2
              rw [← hc2]
              unfold StateManager.esc_inv
              rw [h2]
              show (match dictGet escA "count", dictGet escA "history" with
                | some (Value.int c), some (Value.list h) => decide (c = (h.length : Int))
                | _, _ => false) = true
              rw [h3, h4]
              refine decide_eq_true ?_
              subst hlen
              simp only [List.length_append, List.length_cons, List.length_nil]
              omega
            | str s => exact Bool.noConfusion hinv2
            | int i => exact Bool.noConfusion hinv2
            | bool b => exact Bool.noConfusion hinv2
            | null => exact Bool.noConfusion hinv2
            | obj o => exact Bool.noConfusion hinv2
          | str s => exact Bool.noConfusion hinv2
          | bool b => exact Bool.noConfusion hinv2
          | null => exact Bool.noConfusion hinv2
          | list l2 => exact Bool.noConfusion hinv2
          | obj o => exact Bool.noConfusion hinv2

/-- `get_current_step` never modifies the persisted record. -/
theorem get_current_step_preserves_file (task_id ts : String) (st : Obj) :
    (StateManager.get_current_step task_id ts (some (FileContent.good st))).2 =
      some (FileContent.good st) := by
  simp only [StateManager.get_current_step, StateManager.load]
  repeat' split
  all_goals rfl

/-- `can_retry` never modifies the persisted record. -/
theorem can_retry_preserves_file (task_id ts : String) (st : Obj) :
    (StateManager.can_retry task_id ts (some (FileContent.good st))).2 =
      some (FileContent.good st) := by
  simp only [StateManager.can_retry, StateManager.load]
  repeat' split
  all_goals rfl

/-- `is_completed` never modifies the persisted record. -/
theorem is_completed_preserves_file (task_id ts : String) (st : Obj) :
    (StateManager.is_completed task_id ts (some (FileContent.good st))).2 =
      some (FileContent.good st) := by
  simp only [StateManager.is_completed, StateManager.load]
  repeat' split
  all_goals rfl

/-- `is_failed` never modifies the persisted record. -/
theorem is_failed_preserves_file (task_id ts : String) (st : Obj) :
    (StateManager.is_failed task_id ts (some (FileContent.good st))).2 =
      some (FileContent.good st) := by
  simp only [StateManager.is_failed, StateManager.load]
  repeat' split
  all_goals rfl

/-- C6: the invariant "escalation.count equals the length of
escalation.history" holds on the record initialization writes and is
preserved by every store operation: `save`, `update_status`, `update_step`
(on the states it succeeds on: a dict `steps` whose target entry is a dict
or absent), `increment_retry` and `add_escalation` preserve it, while
`get_current_step`, `can_retry`, `is_completed` and `is_failed` leave the
persisted record untouched; and each `add_escalation` appends exactly one
entry `{timestamp, reason, optional response}` to the history (in call
order, with `response` present exactly when one was supplied) and increments
`count` by exactly one. -/
theorem escalation_invariant :
    (∀ task_id ts : String, ∀ mr : Int,
      StateManager.esc_inv (StateManager.init_state_op task_id ts mr).1 = true) ∧
    (∀ st : Obj, ∀ ts : String, StateManager.esc_inv st = true →
      StateManager.esc_inv (StateManager.save st ts).1 = true) ∧
    (∀ task_id ts s : String, ∀ st st' : Obj, ∀ fs' : Option FileContent,
      StateManager.update_status task_id ts s (some (FileContent.good st)) =
        (Except.ok st', fs') →
      StateManager.esc_inv st = true → StateManager.esc_inv st' = true) ∧
    (∀ task_id ts step_name : String, ∀ kwargs : List (String × Value),
      ∀ st steps r0 : Obj,
      dictGet st "steps" = some (Value.obj steps) →
      (dictGet steps step_name).getD (Value.obj []) = Value.obj r0 →
      ∀ st' : Obj, ∀ fs' : Option FileContent,
      StateManager.update_step task_id ts step_name kwargs
        (some (FileContent.good st)) = (Except.ok st', fs') →
      StateManager.esc_inv st = true → StateManager.esc_inv st' = true) ∧
    (∀ task_id ts : String, ∀ st st' : Obj, ∀ fs' : Option FileContent,
      StateManager.increment_retry task_id ts (some (FileContent.good st)) =
        (Except.ok st', fs') →
      StateManager.esc_inv st = true → StateManager.esc_inv st' = true) ∧
    (∀ task_id ts reason : String, ∀ response : Option String,
      ∀ st esc : Obj, ∀ c : Int, ∀ hist : List Value,
      dictGet st "escalation" = some (Value.obj esc) →
      dictGet esc "count" = some (Value.int c) →
      dictGet esc "history" = some (Value.list hist) →
      ∃ st' esc' : Obj,
        StateManager.add_escalation task_id ts reason response
            (some (FileContent.good st)) =
          (Except.ok st', some (FileContent.good st')) ∧
        dictGet st' "escalation" = some (Value.obj esc') ∧
        dictGet esc' "count" = some (Value.int (c + 1)) ∧
        dictGet esc' "history" = some (Value.list
          (hist ++ [Value.obj (StateManager.escalation_entry ts reason response)]))) ∧
    (∀ ts reason : String, ∀ response : Option String,
      dictGet (StateManager.escalation_entry ts reason response) "timestamp" =
        some (Value.str ts) ∧
      dictGet (StateManager.escalation_entry ts reason response) "reason" =
        some (Value.str reason) ∧
      dictGet (StateManager.escalation_entry ts reason response) "response" =
        Option.map Value.str response) ∧
    (∀ task_id ts reason : String, ∀ response : Option String, ∀ st st' : Obj,
      StateManager.esc_inv st = true →
      (StateManager.add_escalation task_id ts reason response
        (some (FileContent.good st))).1 = Except.ok st' →
      StateManager.esc_inv st' = true) ∧
    (∀ task_id ts : String, ∀ st : Obj,
      (StateManager.get_current_step task_id ts (some (FileContent.good st))).2 =
        some (FileContent.good st) ∧
      (StateManager.can_retry task_id ts (some (FileContent.good st))).2 =
        some (FileContent.good st) ∧
      (StateManager.is_completed task_id ts (some (FileContent.good st))).2 =
        some (FileContent.good st) ∧
      (StateManager.is_failed task_id ts (some (FileContent.good st))).2 =
        some (FileContent.good st)) :=
  ⟨esc_inv_init,
   esc_inv_save,
   fun task_id ts s st st' fs' heq hinv =>
     esc_inv_update_status task_id ts s st st' fs' heq hinv,
   fun task_id ts step_name kwargs st steps r0 hsteps hr0 st' fs' heq hinv =>
     esc_inv_update_step task_id ts step_name kwargs st steps r0 hsteps hr0 st' fs' heq hinv,
   fun task_id ts st st' fs' heq hinv =>
     esc_inv_increment_retry task_id ts st st' fs' heq hinv,
   add_escalation_appends,
   escalation_entry_shape,
   fun task_id ts reason response st st' hinv heq =>
     esc_inv_add_escalation task_id ts reason response st st' hinv heq,
   fun task_id ts st =>
     ⟨get_current_step_preserves_file task_id ts st,
      can_retry_preserves_file task_id ts st,
      is_completed_preserves_file task_id ts st,
      is_failed_preserves_file task_id ts st⟩⟩

/-- Witness for C6: on the freshly initialized record (count 0, empty
history), one `add_escalation` call with reason "reason A" and no response
yields count 1 and a one-entry history carrying that entry. -/
theorem escalation_invariant_witness :
    ∃ st' esc' : Obj,
      StateManager.add_escalation "t1" "ts1" "reason A" none
          (some (FileContent.good (StateManager.init_state "t1" "ts0" 3))) =
        (Except.ok st', some (FileContent.good st')) ∧
      dictGet st' "escalation" = some (Value.obj esc') ∧
      dictGet esc' "count" = some (Value.int 1) ∧
      dictGet esc' "history" = some (Value.list
        [Value.obj (StateManager.escalation_entry "ts1" "reason A" none)]) :=
  escalation_invariant.2.2.2.2.2.1 "t1" "ts1" "reason A" none
    (StateManager.init_state "t1" "ts0" 3)
    [("count", Value.int 0), ("history", Value.list [])]
    0 [] rfl rfl rfl
